import Mathlib

/-!
Verification of the accessibility plugin engine (`accessibility.js`).

Shallow embedding: each JavaScript function that the claims depend on is
transcribed into an executable Lean definition; DOM and storage state are
explicit records that the definitions thread through.  Theorems at the end
settle the frozen claims about the specification.
-/

set_option maxRecDepth 4000

/- ### Association-list primitives

JavaScript objects and the Web Storage API are both string-keyed maps; we
model them as association lists.  `setKV` overwrites the first binding in
place (or appends), matching `obj[k] = v` / `storage.setItem`; `getKV` is
`storage.getItem` / property lookup; `removeKV` is `storage.removeItem` /
`delete obj[k]`. -/

def setKV {β : Type} : List (String × β) → String → β → List (String × β)
  | [], k, v => [(k, v)]
  | (k', v') :: rest, k, v =>
      if k' = k then (k, v) :: rest else (k', v') :: setKV rest k v

def getKV {β : Type} : List (String × β) → String → Option β
  | [], _ => none
  | (k', v') :: rest, k => if k' = k then some v' else getKV rest k

def removeKV {β : Type} : List (String × β) → String → List (String × β)
  | [], _ => []
  | (k', v') :: rest, k =>
      if k' = k then removeKV rest k else (k', v') :: removeKV rest k

/- ### Tiered store (`safeStorage`, accessibility.js lines 21-70)

The wrapper consults `localStorage` first.  Its behaviour depends on how the
durable tier misbehaves, which we capture as a mode:

* `working`      — `localStorage` is truthy and its operations succeed;
* `opThrows`     — `localStorage` is truthy but `setItem`/`getItem`/
                   `removeItem` throw (quota exceeded, private mode);
                   the **outer** `try` catches, so no fallback runs;
* `accessThrows` — evaluating the `localStorage` identifier itself throws
                   (sandboxed frames); again caught by the outer `try`;
* `falsy`        — `localStorage` evaluates to a falsy value, so the `else`
                   branch runs the session tier inside its own `try`.

`sessionThrows` says whether the session tier's operations throw, in which
case the inner `catch` uses `window._memoryStorage` (created lazily by
`setItem`, hence an `Option`). -/

inductive LocalMode
  | working
  | opThrows
  | accessThrows
  | falsy
deriving DecidableEq, Repr

structure StorageEnv where
  localMode : LocalMode
  sessionThrows : Bool
deriving DecidableEq, Repr

structure StorageState where
  localData : List (String × String)
  sessionData : List (String × String)
  memoryData : Option (List (String × String))
deriving DecidableEq, Repr

def safeStorageSetItem (env : StorageEnv) (st : StorageState) (k v : String) :
    StorageState :=
  match env.localMode with
  | .working => { st with localData := setKV st.localData k v }
  | .opThrows => st
  | .accessThrows => st
  | .falsy =>
      if env.sessionThrows then
        { st with memoryData := some (setKV (st.memoryData.getD []) k v) }
      else
        { st with sessionData := setKV st.sessionData k v }

/-- Transcribes `getItem`; note the memory-tier read is
`window._memoryStorage && window._memoryStorage[key] || null`, where an
empty-string value is falsy and therefore collapses to `null`. -/
def safeStorageGetItem (env : StorageEnv) (st : StorageState) (k : String) :
    Option String :=
  match env.localMode with
  | .working => getKV st.localData k
  | .opThrows => none
  | .accessThrows => none
  | .falsy =>
      if env.sessionThrows then
        match st.memoryData with
        | none => none
        | some m =>
            match getKV m k with
            | none => none
            | some v => if v = "" then none else some v
      else getKV st.sessionData k

def safeStorageRemoveItem (env : StorageEnv) (st : StorageState) (k : String) :
    StorageState :=
  match env.localMode with
  | .working => { st with localData := removeKV st.localData k }
  | .opThrows => st
  | .accessThrows => st
  | .falsy =>
      if env.sessionThrows then
        match st.memoryData with
        | none => st
        | some m => { st with memoryData := some (removeKV m k) }
      else { st with sessionData := removeKV st.sessionData k }

def emptyStorage : StorageState := ⟨[], [], none⟩

/- ### JavaScript string helpers

Lean 4.14 strings are `List Char` underneath, so we transcribe the JS
string operations the plugin uses directly on `String.data`.  `jsTrim`
models `String.prototype.trim` (the texts involved are ASCII, where the
two languages' notions of trimmable whitespace agree), and `hasSub`
models `String.prototype.includes`. -/

def jsWhitespace (c : Char) : Bool :=
  c = ' ' || c = '\t' || c = '\n' || c = '\r' || c = Char.ofNat 11 || c = Char.ofNat 12

def jsTrim (s : String) : String :=
  ⟨((s.data.dropWhile jsWhitespace).reverse.dropWhile jsWhitespace).reverse⟩

def beginsWith : List Char → List Char → Bool
  | [], _ => true
  | _ :: _, [] => false
  | a :: as, b :: bs => a = b && beginsWith as bs

def hasSubList (needle : List Char) : List Char → Bool
  | [] => beginsWith needle []
  | c :: cs => beginsWith needle (c :: cs) || hasSubList needle cs

def hasSub (needle hay : String) : Bool :=
  hasSubList needle.data hay.data

/- ### Simplified-language dictionary and substitution
(accessibility.js lines 393-405 and 520-537)

A leaf element (`el.children.length === 0`) is modelled by its
`textContent` together with its `data-original-text` attribute.

`simpleLanguageMap` is a plain object literal, so the truthiness test
`if (simpleLanguageMap[text])` walks the prototype chain: it is truthy for
the eleven own keys (every stored value is a non-empty string) and also for
every inherited `Object.prototype` property name — those inherited values
are native functions (or, for `__proto__`, the `Object.prototype` object
itself), all truthy, and the assignment `el.textContent = ...` stringifies
them. -/

def simpleLanguageMap : List (String × String) :=
  [("Choose verification mode:", "Pick how to verify:"),
   ("Automatic (invisible)", "Automatic"),
   ("Passkey / WebAuthn", "Use passkey"),
   ("Text question", "Text question"),
   ("Keyboard-only", "Keyboard only"),
   ("Start verification", "Start"),
   ("Submit", "Send"),
   ("Cancel", "Stop"),
   ("Table of Contents", "Contents"),
   ("Back to top", "Top"),
   ("Last updated", "Updated")]

structure LeafEl where
  textContent : String
  origAttr : Option String
deriving DecidableEq, Repr

/-- Own properties of `Object.prototype`, paired with the string that the
assignment `el.textContent = simpleLanguageMap[text]` produces for each
(native functions serialise as shown; the `__proto__` accessor yields an
object, which serialises as `[object Object]`).  The exact native-function
spelling is host-dependent; every engine produces a non-empty string of
this shape that trims to itself and is neither a dictionary key nor
another inherited name. -/
def objectProtoMembers : List (String × String) :=
  [("constructor", "function Object() \x7b [native code] \x7d"),
   ("hasOwnProperty", "function hasOwnProperty() \x7b [native code] \x7d"),
   ("isPrototypeOf", "function isPrototypeOf() \x7b [native code] \x7d"),
   ("propertyIsEnumerable",
     "function propertyIsEnumerable() \x7b [native code] \x7d"),
   ("toLocaleString", "function toLocaleString() \x7b [native code] \x7d"),
   ("toString", "function toString() \x7b [native code] \x7d"),
   ("valueOf", "function valueOf() \x7b [native code] \x7d"),
   ("__defineGetter__", "function __defineGetter__() \x7b [native code] \x7d"),
   ("__defineSetter__", "function __defineSetter__() \x7b [native code] \x7d"),
   ("__lookupGetter__", "function __lookupGetter__() \x7b [native code] \x7d"),
   ("__lookupSetter__", "function __lookupSetter__() \x7b [native code] \x7d"),
   ("__proto__", "[object Object]")]

/-- The object-literal lookup `simpleLanguageMap[text]` as the source uses
it, prototype chain included: an own key yields its (truthy) dictionary
value, otherwise an inherited `Object.prototype` member name yields that
(truthy) member, stringified as the subsequent `textContent` assignment
renders it; everything else is `undefined`, i.e. falsy. -/
def simpleLanguageLookup (text : String) : Option String :=
  match getKV simpleLanguageMap text with
  | some repl => some repl
  | none => getKV objectProtoMembers text

/-- One element's view of `applySimpleLanguage`: if the element has text and
the object-literal lookup of its trimmed text is truthy, record the
*trimmed* text in `data-original-text` and replace the text with the
looked-up value. -/
def applySimpleLanguageEl (el : LeafEl) : LeafEl :=
  if el.textContent ≠ "" then
    let text := jsTrim el.textContent
    match simpleLanguageLookup text with
    | some repl => { textContent := repl, origAttr := some text }
    | none => el
  else el

def applySimpleLanguage (els : List LeafEl) : List LeafEl :=
  els.map applySimpleLanguageEl

/-- One element's view of `removeSimpleLanguage`: elements carrying
`data-original-text` get that attribute's value back as their text and the
attribute is removed; all other elements are untouched. -/
def removeSimpleLanguageEl (el : LeafEl) : LeafEl :=
  match el.origAttr with
  | some o => { textContent := o, origAttr := none }
  | none => el

def removeSimpleLanguage (els : List LeafEl) : List LeafEl :=
  els.map removeSimpleLanguageEl

/- ### Screen-reader detection (`detectScreenReader`, lines 409-432)

The function is driven by the lower-cased user-agent string and by whether
`window.speechSynthesis` exists with a non-empty voice list; both are
captured in `SrEnv`. -/

structure SrEnv where
  ua : String
  speechVoices : Bool
deriving DecidableEq, Repr

def detectScreenReader (screenReaderMode : String) (env : SrEnv) : String :=
  if screenReaderMode ≠ "auto" then screenReaderMode
  else
    let isWindows := hasSub "win" env.ua
    let isMac := hasSub "mac" env.ua
    let isIOS := hasSub "iphone" env.ua || hasSub "ipad" env.ua || hasSub "ipod" env.ua
    let isAndroid := hasSub "android" env.ua
    let isLinux := hasSub "linux" env.ua
    if env.speechVoices && (isMac || isIOS) then "voiceover"
    else if env.speechVoices && isWindows then "narrator"
    else if isWindows then "nvda"
    else if isMac || isIOS then "voiceover"
    else if isAndroid then "talkback"
    else if isLinux then "orca"
    else "nvda"

/-- The decision procedure exactly as §4.4 of the spec words it, over the
abstract environment descriptor (speech capability plus OS-signature
booleans).  Used only to compare the source function against the spec. -/
structure SrDescriptor where
  speech : Bool
  apple : Bool
  windows : Bool
  android : Bool
  linux : Bool
deriving DecidableEq, Repr

def detectSpec (screenReaderMode : String) (d : SrDescriptor) : String :=
  if screenReaderMode ≠ "auto" then screenReaderMode
  else if d.speech && d.apple then "voiceover"
  else if d.speech && d.windows then "narrator"
  else if d.windows then "nvda"
  else if d.apple then "voiceover"
  else if d.android then "talkback"
  else if d.linux then "orca"
  else "nvda"

def descriptorOf (env : SrEnv) : SrDescriptor :=
  { speech := env.speechVoices
    apple := hasSub "mac" env.ua ||
      (hasSub "iphone" env.ua || hasSub "ipad" env.ua || hasSub "ipod" env.ua)
    windows := hasSub "win" env.ua
    android := hasSub "android" env.ua
    linux := hasSub "linux" env.ua }

/- ### Settings record and `loadA11ySettings` (lines 196-210 and 638-655)

The in-memory record `a11yState` is a JavaScript object, so it can in
principle hold any JSON value at any key and can acquire keys beyond the
declared ones; we model it as an association list of JSON values.
`JSON.parse` of the stored snapshot is modelled abstractly by its outcome:
the stored key is absent (or the stored string is falsy), the parse throws,
or it yields an object with the given fields. -/

inductive JsVal
  | vNull
  | vBool (b : Bool)
  | vNum (n : Int)
  | vStr (s : String)
deriving DecidableEq, Repr

/-- The default record, field for field (line 196); note the source carries a
thirteenth field `voiceControl` beyond the twelve keys in the spec's table. -/
def a11yStateDefaults : List (String × JsVal) :=
  [("highContrast", .vBool false),
   ("textSize", .vNum 100),
   ("colorScheme", .vStr "default"),
   ("enhancedFocus", .vBool false),
   ("reduceMotion", .vBool false),
   ("simpleLanguage", .vBool false),
   ("readingGuide", .vBool false),
   ("keyboardShortcuts", .vBool true),
   ("tabOrder", .vBool false),
   ("screenReaderMode", .vStr "auto"),
   ("announceChanges", .vBool true),
   ("ariaLive", .vBool true),
   ("voiceControl", .vBool false)]

/-- The twelve settings keys declared in the spec's data-model table. -/
def declaredKeys : List String :=
  ["highContrast", "textSize", "colorScheme", "enhancedFocus", "reduceMotion",
   "simpleLanguage", "readingGuide", "keyboardShortcuts", "tabOrder",
   "screenReaderMode", "announceChanges", "ariaLive"]

/-- Transcribes `Object.assign(target, source)`: every own key of the source is written
into the target, in source order. -/
def objectAssign (target : List (String × JsVal)) (source : List (String × JsVal)) :
    List (String × JsVal) :=
  source.foldl (fun t p => setKV t p.1 p.2) target

/-- Outcome of `safeStorage.getItem('a11ySettings')` followed by
`JSON.parse`: no usable string, a parse failure, or parsed fields. -/
inductive SnapshotRead
  | absent
  | unparseable
  | parsed (fields : List (String × JsVal))
deriving DecidableEq, Repr

/-- Transcribes `loadA11ySettings` restricted to its effect on the record: merge via
`Object.assign`, then backfill only `keyboardShortcuts` when it ends up
`undefined`/`null`; on a missing or unparseable snapshot the catch/else
branches just force `keyboardShortcuts = true`.  (The call to
`applyAllA11ySettings` only touches the page, not the record.) -/
def loadA11ySettings (saved : SnapshotRead) (state : List (String × JsVal)) :
    List (String × JsVal) :=
  match saved with
  | .parsed fields =>
      let st := objectAssign state fields
      match getKV st "keyboardShortcuts" with
      | none => setKV st "keyboardShortcuts" (.vBool true)
      | some .vNull => setKV st "keyboardShortcuts" (.vBool true)
      | some _ => st
  | .unparseable => setKV state "keyboardShortcuts" (.vBool true)
  | .absent => setKV state "keyboardShortcuts" (.vBool true)

/- ### Color-scheme marker handling (`setColorScheme`, lines 479-487)

`document.body.className = document.body.className.replace(/color-\w+/g, '')`
deletes every maximal occurrence of `color-` followed by at least one word
character.  A match never spans a space, so the replacement acts token by
token on the class list; tokens whose text is deleted entirely vanish from
the re-parsed class list.  `stripColorRuns` is that regex replacement on one
token: on a match the scan deletes it and resumes *after* the deleted run
(exactly like `String.prototype.replace` with a global regex), otherwise it
advances one character.  The recursion is fed a character budget so that it
stays structural (the budget `l.length` is never exhausted: every step
consumes at least one character). -/

def isWordChar (c : Char) : Bool :=
  c.isAlphanum || c = '_'

def stripGo : Nat → List Char → List Char
  | _, [] => []
  | 0, l => l
  | fuel + 1, 'c' :: 'o' :: 'l' :: 'o' :: 'r' :: '-' :: d :: rest =>
      if isWordChar d then stripGo fuel (rest.dropWhile isWordChar)
      else 'c' :: stripGo fuel ('o' :: 'l' :: 'o' :: 'r' :: '-' :: d :: rest)
  | fuel + 1, c :: cs => c :: stripGo fuel cs

def stripColorRuns (l : List Char) : List Char :=
  stripGo l.length l

def stripColorTok (s : String) : String :=
  ⟨stripColorRuns s.data⟩

/-- Effect of the regex replacement on the parsed class-token list: each
token is rewritten and tokens deleted in full disappear on re-parse. -/
def replaceColorClasses : List String → List String
  | [] => []
  | t :: ts =>
      if stripColorTok t = "" then replaceColorClasses ts
      else stripColorTok t :: replaceColorClasses ts

def classListAdd (classes : List String) (c : String) : List String :=
  if c ∈ classes then classes else classes ++ [c]

def classListRemove (classes : List String) (c : String) : List String :=
  classes.filter (fun t => t ≠ c)

/-- Effect of `setColorScheme` on the page root class tokens: strip every
`color-\w+` run, then tag the new scheme — except that `default` adds no
marker. -/
def setColorSchemeClasses (scheme : String) (classes : List String) : List String :=
  let stripped := replaceColorClasses classes
  if scheme ≠ "default" then classListAdd stripped ("color-" ++ scheme)
  else stripped

def schemeMarkerNames : List String :=
  ["color-protanopia", "color-deuteranopia", "color-tritanopia", "color-monochrome"]

def schemeMarkers (classes : List String) : List String :=
  classes.filter (fun t => t ∈ schemeMarkerNames)

inductive ColorScheme
  | cdefault
  | protanopia
  | deuteranopia
  | tritanopia
  | monochrome
deriving DecidableEq, Repr

def ColorScheme.name : ColorScheme → String
  | .cdefault => "default"
  | .protanopia => "protanopia"
  | .deuteranopia => "deuteranopia"
  | .tritanopia => "tritanopia"
  | .monochrome => "monochrome"

/-- A class token is strip-stable when stripping it a second time changes
nothing: stripping it did not splice a fresh `color-` run together.  Every
ordinary class token (in particular any token not containing the substring
`color-`, and every token the engine itself writes) is strip-stable. -/
def StripStable (t : String) : Prop :=
  stripColorTok (stripColorTok t) = stripColorTok t

instance (t : String) : Decidable (StripStable t) := by
  unfold StripStable; infer_instance

/- ### Announcer (`announceToScreenReader`, lines 184-192)

The single live region is a pair (aria-live attribute, text).  Each call to
`announce` synchronously sets the attribute and then the text, and schedules
a `setTimeout` that clears the text 1000 ms later.  We model the timeline as
a list of timestamped events executed in time order (ties keep creation
order, which is how the single-threaded event loop drains them). -/

structure LiveRegion where
  ariaLive : String
  text : String
deriving DecidableEq, Repr

inductive AnnEvent
  | doSet (priority message : String)
  | doClear
deriving DecidableEq, Repr

/-- Insert an event into a time-sorted list, after any already-scheduled
event with the same or an earlier timestamp (stable insertion). -/
def insertEv (e : Nat × AnnEvent) : List (Nat × AnnEvent) → List (Nat × AnnEvent)
  | [] => [e]
  | f :: fs => if f.1 ≤ e.1 then f :: insertEv e fs else e :: f :: fs

/-- The events generated by a list of `announce(message, priority)` calls,
given as (call time, message, priority): the synchronous set at the call
time plus the scheduled clear 1000 ms later. -/
def announceSchedule (calls : List (Nat × String × String)) : List (Nat × AnnEvent) :=
  calls.foldl
    (fun acc c => insertEv (c.1 + 1000, .doClear) (insertEv (c.1, .doSet c.2.2 c.2.1) acc))
    []

def runAnnEvents (evs : List (Nat × AnnEvent)) (r : LiveRegion) : LiveRegion :=
  evs.foldl
    (fun r e =>
      match e.2 with
      | .doSet priority message => { ariaLive := priority, text := message }
      | .doClear => { r with text := "" })
    r

/-- The live region as observed at time `now`: all events due by `now` have
run, later ones have not fired yet. -/
def regionAt (calls : List (Nat × String × String)) (now : Nat) (r : LiveRegion) :
    LiveRegion :=
  runAnnEvents ((announceSchedule calls).filter (fun e => e.1 ≤ now)) r

/- ### Audio alert system (lines 74-167)

State of the audio subsystem plus the bits of environment it probes:
whether `window.AudioContext` exists, whether constructing it throws, and
whether the `#audioToggle` element is present in the page (the plugin's own
injected panel contains no element with that id). -/

structure AudioSys where
  audioEnabled : Bool
  audioContextExists : Bool
  envAudioSupport : Bool
  ctxConstructFails : Bool
  toggleElPresent : Bool
  toggleAriaChecked : Option String
  tonesPlayed : List String
  announcements : List String
  audioStore : List (String × String)
deriving DecidableEq, Repr

/-- Transcribes `initAudioContext`: lazily construct the shared context; a constructor
throw permanently disables audio for the session. -/
def initAudioContext (s : AudioSys) : AudioSys :=
  if !s.audioContextExists && s.envAudioSupport then
    if s.ctxConstructFails then { s with audioEnabled := false }
    else { s with audioContextExists := true }
  else s

/-- Transcribes `playTone`: bails out unless audio is enabled and a context exists;
otherwise schedules one enveloped oscillator (recorded by its frequency). -/
def playTone (frequency : String) (s : AudioSys) : AudioSys :=
  if !s.audioEnabled || !s.audioContextExists then s
  else { s with tonesPlayed := s.tonesPlayed ++ [frequency] }

/-- Transcribes `playSuccessSound`: muted calls return before any synthesis; otherwise
the three ascending tones fire at their staggered offsets. -/
def playSuccessSound (s : AudioSys) : AudioSys :=
  if !s.audioEnabled then s
  else playTone "783.99" (playTone "659.25" (playTone "523.25" s))

def playErrorSound (s : AudioSys) : AudioSys :=
  if !s.audioEnabled then s
  else playTone "261.63" (playTone "349.23" (playTone "440" s))

def playInfoSound (s : AudioSys) : AudioSys :=
  if !s.audioEnabled then s
  else playTone "600" s

def announceAudio (message : String) (s : AudioSys) : AudioSys :=
  { s with announcements := s.announcements ++ [message] }

/-- Transcribes `toggleAudioAlerts` (lines 142-156).  Note that the aria sync, the
context re-arm, the confirmation tone and the announcement all sit inside
`if (toggle)` — they are skipped entirely when no `#audioToggle` element
exists.  The 100 ms `setTimeout` around `playInfoSound` is collapsed to its
firing (nothing else runs in between in this model).  The preference write
happens unconditionally last; the durable tier is taken as working here. -/
def toggleAudioAlerts (s : AudioSys) : AudioSys :=
  let s := { s with audioEnabled := !s.audioEnabled }
  let s :=
    if s.toggleElPresent then
      let s := { s with toggleAriaChecked := some (toString s.audioEnabled) }
      if s.audioEnabled then
        let s := initAudioContext s
        let s := playInfoSound s
        announceAudio "Audio alerts enabled." s
      else
        announceAudio "Audio alerts disabled." s
    else s
  { s with audioStore := setKV s.audioStore "audioAlertsEnabled" (toString s.audioEnabled) }

/- ### Feature application engine (lines 459-630)

One record for the typed in-memory settings (`a11yState`, line 196), one for
the observable page, and one for the whole engine.  Overlay geometry (the
`style.top/left/...` writes) is the spec's Transient Overlay State and is
not part of the observable page model; overlay existence, their `active`
class and their listener registrations are.  Announcements, sound requests
and the persisted snapshot are engine effects outside the page. -/

structure A11yState where
  highContrast : Bool
  textSize : Nat
  colorScheme : String
  enhancedFocus : Bool
  reduceMotion : Bool
  simpleLanguage : Bool
  readingGuide : Bool
  keyboardShortcuts : Bool
  tabOrder : Bool
  screenReaderMode : String
  announceChanges : Bool
  ariaLive : Bool
  voiceControl : Bool
deriving DecidableEq, Repr

def a11yStateInit : A11yState :=
  { highContrast := false, textSize := 100, colorScheme := "default",
    enhancedFocus := false, reduceMotion := false, simpleLanguage := false,
    readingGuide := false, keyboardShortcuts := true, tabOrder := false,
    screenReaderMode := "auto", announceChanges := true, ariaLive := true,
    voiceControl := false }

structure PageState where
  bodyClasses : List String
  bodyFontSize : Option String
  textSizeLabel : Option String
  leaves : List LeafEl
  readingGuideCount : Nat
  readingGuideActive : Bool
  tabIndicatorCount : Nat
  tabIndicatorActive : Bool
  guideListeners : Bool
  tabListeners : Bool
deriving DecidableEq, Repr

structure Sys where
  a11y : A11yState
  page : PageState
  readingGuideEl : Bool
  tabIndicatorEl : Bool
  storedSnapshot : Option A11yState
  announcements : List String
  soundRequests : List String
deriving DecidableEq, Repr

/-- The page environment an applicator can observe: whether
`document.activeElement` exists and differs from `document.body`. -/
structure DomEnv where
  focusedNonBody : Bool
deriving DecidableEq, Repr

def saveA11ySettings (s : Sys) : Sys :=
  { s with storedSnapshot := some s.a11y }

def announceSys (message : String) (s : Sys) : Sys :=
  { s with announcements := s.announcements ++ [message] }

def requestInfoSound (s : Sys) : Sys :=
  { s with soundRequests := s.soundRequests ++ ["info"] }

def toggleHighContrast (enabled : Bool) (s : Sys) : Sys :=
  let s := { s with a11y.highContrast := enabled }
  let s := { s with page.bodyClasses :=
      if enabled then classListAdd s.page.bodyClasses "high-contrast"
      else classListRemove s.page.bodyClasses "high-contrast" }
  let s := saveA11ySettings s
  let s := announceSys
      (if enabled then "High contrast mode enabled" else "High contrast mode disabled") s
  if enabled then requestInfoSound s else s

def setTextSize (size : Nat) (s : Sys) : Sys :=
  let s := { s with a11y.textSize := size }
  let s := { s with page.bodyFontSize := some (toString size ++ "%") }
  let s := { s with page.textSizeLabel :=
      s.page.textSizeLabel.map (fun _ => toString size ++ "%") }
  saveA11ySettings s

def setColorScheme (scheme : String) (s : Sys) : Sys :=
  let s := { s with a11y.colorScheme := scheme }
  let s := { s with page.bodyClasses := setColorSchemeClasses scheme s.page.bodyClasses }
  let s := saveA11ySettings s
  announceSys ("Color scheme changed to " ++ scheme) s

def toggleEnhancedFocus (enabled : Bool) (s : Sys) : Sys :=
  let s := { s with a11y.enhancedFocus := enabled }
  let s := { s with page.bodyClasses :=
      if enabled then classListAdd s.page.bodyClasses "enhanced-focus"
      else classListRemove s.page.bodyClasses "enhanced-focus" }
  saveA11ySettings s

def toggleReduceMotion (enabled : Bool) (s : Sys) : Sys :=
  let s := { s with a11y.reduceMotion := enabled }
  let s := { s with page.bodyClasses :=
      if enabled then classListAdd s.page.bodyClasses "reduce-motion"
      else classListRemove s.page.bodyClasses "reduce-motion" }
  saveA11ySettings s

def toggleSimpleLanguage (enabled : Bool) (s : Sys) : Sys :=
  let s := { s with a11y.simpleLanguage := enabled }
  let s := { s with page.leaves :=
      if enabled then applySimpleLanguage s.page.leaves
      else removeSimpleLanguage s.page.leaves }
  let s := saveA11ySettings s
  announceSys
    (if enabled then "Simplified language enabled" else "Simplified language disabled") s

def toggleReadingGuide (enabled : Bool) (s : Sys) : Sys :=
  let s := { s with a11y.readingGuide := enabled }
  let s :=
    if enabled then
      let s :=
        if !s.readingGuideEl then
          { s with readingGuideEl := true,
                   page.readingGuideCount := s.page.readingGuideCount + 1 }
        else s
      let s := { s with page.readingGuideActive := true }
      { s with page.guideListeners := true }
    else
      let s :=
        if s.readingGuideEl then { s with page.readingGuideActive := false } else s
      { s with page.guideListeners := false }
  saveA11ySettings s

/-- Transcribes `updateTabIndicator` (lines 619-630) without the geometry writes. -/
def updateTabIndicator (env : DomEnv) (s : Sys) : Sys :=
  if !s.tabIndicatorEl || !s.a11y.tabOrder then s
  else if env.focusedNonBody then { s with page.tabIndicatorActive := true }
  else s

def toggleTabOrder (env : DomEnv) (enabled : Bool) (s : Sys) : Sys :=
  let s := { s with a11y.tabOrder := enabled }
  let s :=
    if enabled then
      let s :=
        if !s.tabIndicatorEl then
          { s with tabIndicatorEl := true,
                   page.tabIndicatorCount := s.page.tabIndicatorCount + 1 }
        else s
      let s := updateTabIndicator env s
      { s with page.tabListeners := true }
    else
      let s :=
        if s.tabIndicatorEl then { s with page.tabIndicatorActive := false } else s
      { s with page.tabListeners := false }
  saveA11ySettings s

inductive FeatureApp
  | highContrast (enabled : Bool)
  | textSize (size : Nat)
  | colorScheme (scheme : ColorScheme)
  | enhancedFocus (enabled : Bool)
  | reduceMotion (enabled : Bool)
  | simpleLanguage (enabled : Bool)
  | readingGuide (enabled : Bool)
  | tabOrder (enabled : Bool)
deriving DecidableEq, Repr

def applyFeature (env : DomEnv) : FeatureApp → Sys → Sys
  | .highContrast b => toggleHighContrast b
  | .textSize n => setTextSize n
  | .colorScheme c => setColorScheme c.name
  | .enhancedFocus b => toggleEnhancedFocus b
  | .reduceMotion b => toggleReduceMotion b
  | .simpleLanguage b => toggleSimpleLanguage b
  | .readingGuide b => toggleReadingGuide b
  | .tabOrder b => toggleTabOrder env b

def runFeatures : List (DomEnv × FeatureApp) → Sys → Sys
  | [], s => s
  | (env, f) :: rest, s => runFeatures rest (applyFeature env f s)

/-- Engine state on a fresh page: defaults, no overlays, no listeners. -/
def initSys : Sys :=
  { a11y := a11yStateInit
    page := { bodyClasses := [], bodyFontSize := none, textSizeLabel := none,
              leaves := [], readingGuideCount := 0, readingGuideActive := false,
              tabIndicatorCount := 0, tabIndicatorActive := false,
              guideListeners := false, tabListeners := false }
    readingGuideEl := false, tabIndicatorEl := false, storedSnapshot := none,
    announcements := [], soundRequests := [] }

/-- A muted audio subsystem on a page without an `#audioToggle` element —
the situation of any page that relies on the plugin's own injected panel,
which contains no element with that id. -/
def mutedNoToggleAudio : AudioSys :=
  { audioEnabled := false, audioContextExists := false, envAudioSupport := true,
    ctxConstructFails := false, toggleElPresent := false, toggleAriaChecked := none,
    tonesPlayed := [], announcements := [], audioStore := [] }

/- ### Reset (`resetA11ySettings`, lines 680-683)

Removes only the `'a11ySettings'` snapshot entry; the subsequent
`location.reload()` restarts the host page session and touches no storage. -/

def resetA11ySettings (env : StorageEnv) (st : StorageState) : StorageState :=
  safeStorageRemoveItem env st "a11ySettings"

/-!
## Theorems

Shared lemmas about the primitive operations, then one theorem (plus
witness/counterexample) per claim.
-/

theorem getKV_setKV_same {β : Type} (m : List (String × β)) (k : String) (v : β) :
    getKV (setKV m k v) k = some v := by
  induction m with
  | nil => simp [setKV, getKV]
  | cons p rest ih =>
      by_cases h : p.1 = k
      · simp [setKV, getKV, h]
      · simp [setKV, getKV, h, ih]

theorem getKV_setKV_other {β : Type} (m : List (String × β)) (k k' : String) (v : β) (h : k' ≠ k) :
    getKV (setKV m k v) k' = getKV m k' := by
  induction m with
  | nil => simp [setKV, getKV, Ne.symm h]
  | cons p rest ih =>
      by_cases hp : p.1 = k
      · simp [setKV, getKV, hp, Ne.symm h]
      · simp [setKV, getKV, hp, ih]

theorem getKV_removeKV_same {β : Type} (m : List (String × β)) (k : String) :
    getKV (removeKV m k) k = none := by
  induction m with
  | nil => simp [removeKV, getKV]
  | cons p rest ih =>
      obtain ⟨k', v'⟩ := p
      by_cases hp : k' = k
      · simpa [removeKV, getKV, hp] using ih
      · simpa [removeKV, getKV, hp] using ih

theorem getKV_removeKV_other {β : Type} (m : List (String × β)) (k k' : String) (h : k' ≠ k) :
    getKV (removeKV m k) k' = getKV m k' := by
  induction m with
  | nil => simp [removeKV, getKV]
  | cons p rest ih =>
      obtain ⟨a, b⟩ := p
      by_cases hp : a = k
      · simpa [removeKV, getKV, hp, Ne.symm h] using ih
      · by_cases hk' : a = k'
        · simp [removeKV, getKV, hp, hk', h]
        · simpa [removeKV, getKV, hp, hk'] using ih

theorem getKV_setKV_isSome {β : Type} (m : List (String × β)) (k k' : String) (v : β)
    (h : getKV m k' ≠ none) : getKV (setKV m k v) k' ≠ none := by
  by_cases hk : k' = k
  · subst hk; simp [getKV_setKV_same]
  · rw [getKV_setKV_other m k k' v hk]; exact h

theorem mem_of_getKV {β : Type} (m : List (String × β)) (k : String) (v : β)
    (h : getKV m k = some v) : (k, v) ∈ m := by
  induction m with
  | nil => simp [getKV] at h
  | cons p rest ih =>
      obtain ⟨a, b⟩ := p
      by_cases hp : a = k
      · subst hp
        simp [getKV] at h
        subst h
        exact List.mem_cons_self _ _
      · simp only [getKV, hp, if_false] at h
        exact List.mem_cons_of_mem _ (ih h)

theorem getKV_none_of_not_mem_keys {β : Type} (m : List (String × β)) (k : String)
    (h : k ∉ m.map Prod.fst) : getKV m k = none := by
  induction m with
  | nil => simp [getKV]
  | cons p rest ih =>
      simp only [List.map_cons, List.mem_cons] at h
      push_neg at h
      simp [getKV, Ne.symm h.1, ih h.2]

/- ### Claim C1 — tiered-store fallback round-trip -/

/-- C1 counterexample.  The claim says `set` then `get` returns the value
"even when the durable (localStorage) tier throws on every access, because
the fallback chain degrades to the session tier and ultimately the
unconditional in-process memory tier".  In the code the session and memory
tiers are only reached when `localStorage` is *falsy*; a throwing
`localStorage` is caught by the outer `try`, nothing is written anywhere,
and the subsequent `get` returns `null`. -/
theorem c1_counterexample :
    safeStorageGetItem ⟨.opThrows, false⟩
      (safeStorageSetItem ⟨.opThrows, false⟩ emptyStorage "audioAlertsEnabled" "true")
      "audioAlertsEnabled" = none := by
  decide

/-- C1 amended: `set` then `get` round-trips within the same session when
the durable tier works, or when the durable tier is absent (falsy) and the
chain degrades to the session tier, or further to the memory tier for
non-empty values; but when the durable tier is present and throwing, `set`
stores nothing (no fallback tier is attempted) and `get` returns null. -/
theorem c1_set_get_roundtrip (st : StorageState) (k v : String) :
    (∀ b : Bool, safeStorageGetItem ⟨.working, b⟩
        (safeStorageSetItem ⟨.working, b⟩ st k v) k = some v)
    ∧ safeStorageGetItem ⟨.falsy, false⟩
        (safeStorageSetItem ⟨.falsy, false⟩ st k v) k = some v
    ∧ (v ≠ "" → safeStorageGetItem ⟨.falsy, true⟩
        (safeStorageSetItem ⟨.falsy, true⟩ st k v) k = some v)
    ∧ (∀ b : Bool, safeStorageSetItem ⟨.opThrows, b⟩ st k v = st
        ∧ safeStorageGetItem ⟨.opThrows, b⟩ st k = none) := by
  refine ⟨fun b => ?_, ?_, fun hv => ?_, fun b => ⟨rfl, rfl⟩⟩
  · simp [safeStorageSetItem, safeStorageGetItem, getKV_setKV_same]
  · simp [safeStorageSetItem, safeStorageGetItem, getKV_setKV_same]
  · simp [safeStorageSetItem, safeStorageGetItem, getKV_setKV_same, hv]

theorem c1_set_get_roundtrip_witness :
    safeStorageGetItem ⟨.falsy, true⟩
      (safeStorageSetItem ⟨.falsy, true⟩ emptyStorage "a11ySettings" "x")
      "a11ySettings" = some "x" :=
  (c1_set_get_roundtrip emptyStorage "a11ySettings" "x").2.2.1 (by decide)

/- ### Claim C10 — reset removes only the settings snapshot -/

/-- C10: `resetA11ySettings` removes exactly the `'a11ySettings'` entry
before triggering the reload; every other key — in particular the
independently stored `'audioAlertsEnabled'` preference — reads back
unchanged under every storage environment, so the user's audio choice
survives a settings reset. -/
theorem c10_reset_preserves_other_keys (env : StorageEnv) (st : StorageState)
    (k : String) (hk : k ≠ "a11ySettings") :
    safeStorageGetItem env (resetA11ySettings env st) k = safeStorageGetItem env st k
    ∧ safeStorageGetItem env (resetA11ySettings env st) "audioAlertsEnabled" =
        safeStorageGetItem env st "audioAlertsEnabled"
    ∧ (env.localMode = .working →
        safeStorageGetItem env (resetA11ySettings env st) "a11ySettings" = none) := by
  obtain ⟨lm, sth⟩ := env
  have haudio : ("audioAlertsEnabled" : String) ≠ "a11ySettings" := by decide
  refine ⟨?_, ?_, ?_⟩
  · cases lm with
    | working =>
        simp [resetA11ySettings, safeStorageRemoveItem, safeStorageGetItem,
          getKV_removeKV_other _ _ _ hk]
    | opThrows => rfl
    | accessThrows => rfl
    | falsy =>
        cases sth with
        | false =>
            simp [resetA11ySettings, safeStorageRemoveItem, safeStorageGetItem,
              getKV_removeKV_other _ _ _ hk]
        | true =>
            cases hm : st.memoryData with
            | none =>
                simp [resetA11ySettings, safeStorageRemoveItem, safeStorageGetItem, hm]
            | some m =>
                simp [resetA11ySettings, safeStorageRemoveItem, safeStorageGetItem, hm,
                  getKV_removeKV_other _ _ _ hk]
  · cases lm with
    | working =>
        simp [resetA11ySettings, safeStorageRemoveItem, safeStorageGetItem,
          getKV_removeKV_other _ _ _ haudio]
    | opThrows => rfl
    | accessThrows => rfl
    | falsy =>
        cases sth with
        | false =>
            simp [resetA11ySettings, safeStorageRemoveItem, safeStorageGetItem,
              getKV_removeKV_other _ _ _ haudio]
        | true =>
            cases hm : st.memoryData with
            | none =>
                simp [resetA11ySettings, safeStorageRemoveItem, safeStorageGetItem, hm]
            | some m =>
                simp [resetA11ySettings, safeStorageRemoveItem, safeStorageGetItem, hm,
                  getKV_removeKV_other _ _ _ haudio]
  · intro hw
    cases lm with
    | working =>
        simp [resetA11ySettings, safeStorageRemoveItem, safeStorageGetItem,
          getKV_removeKV_same]
    | opThrows => cases hw
    | accessThrows => cases hw
    | falsy => cases hw

theorem c10_reset_preserves_other_keys_witness :
    safeStorageGetItem ⟨.working, false⟩
        (resetA11ySettings ⟨.working, false⟩
          ⟨[("a11ySettings", "{}"), ("audioAlertsEnabled", "false")], [], none⟩)
        "audioAlertsEnabled" = some "false"
    ∧ safeStorageGetItem ⟨.working, false⟩
        (resetA11ySettings ⟨.working, false⟩
          ⟨[("a11ySettings", "{}"), ("audioAlertsEnabled", "false")], [], none⟩)
        "a11ySettings" = none := by
  have h := c10_reset_preserves_other_keys ⟨.working, false⟩
    ⟨[("a11ySettings", "{}"), ("audioAlertsEnabled", "false")], [], none⟩
    "audioAlertsEnabled" (by decide)
  exact ⟨by rw [h.2.1]; decide, h.2.2 rfl⟩

/- ### Claims C3/C4 — snapshot merge semantics of `loadA11ySettings` -/

theorem getKV_objectAssign_of_none (source : List (String × JsVal)) (k : String)
    (h : getKV source k = none) :
    ∀ target, getKV (objectAssign target source) k = getKV target k := by
  induction source with
  | nil => intro target; rfl
  | cons p rest ih =>
      intro target
      obtain ⟨a, b⟩ := p
      by_cases hp : a = k
      · simp [getKV, hp] at h
      · simp only [getKV, hp, if_false] at h
        show getKV (objectAssign (setKV target a b) rest) k = _
        rw [ih h, getKV_setKV_other _ _ _ _ (fun hk => hp hk.symm)]

theorem getKV_objectAssign_of_some (source : List (String × JsVal)) (k : String)
    (v : JsVal) (hnd : (source.map Prod.fst).Nodup) (h : getKV source k = some v) :
    ∀ target, getKV (objectAssign target source) k = some v := by
  induction source with
  | nil => intro target; simp [getKV] at h
  | cons p rest ih =>
      intro target
      obtain ⟨a, b⟩ := p
      simp only [List.map_cons, List.nodup_cons] at hnd
      by_cases hp : a = k
      · subst hp
        simp [getKV] at h
        subst h
        have hnone : getKV rest a = none :=
          getKV_none_of_not_mem_keys rest a hnd.1
        show getKV (objectAssign (setKV target a b) rest) a = some b
        rw [getKV_objectAssign_of_none rest a hnone, getKV_setKV_same]
      · simp only [getKV, hp, if_false] at h
        exact ih hnd.2 h (setKV target a b)

theorem getKV_objectAssign_isSome (source target : List (String × JsVal)) (k : String)
    (h : getKV target k ≠ none) : getKV (objectAssign target source) k ≠ none := by
  induction source generalizing target with
  | nil => exact h
  | cons p rest ih =>
      exact ih (setKV target p.1 p.2) (getKV_setKV_isSome target p.1 k p.2 h)

/-- C3 counterexample.  The claim says unknown extra keys appearing in the
snapshot are ignored — not copied into the in-memory record.  But
`loadA11ySettings` merges with `Object.assign(a11yState, savedSettings)`,
which copies *every* own key of the parsed snapshot, so the undeclared key
`zzz` ends up readable in the record instead of being absent. -/
theorem c3_counterexample :
    getKV (loadA11ySettings (.parsed [("zzz", .vStr "1")]) a11yStateDefaults) "zzz" =
      some (.vStr "1") := by
  decide

/-- C3 amended: `load()` merges a present-and-parseable snapshot over the
default record so that keys missing from the snapshot keep their default
values, but unknown extra keys appearing in the snapshot ARE copied into
the in-memory record (the merge is `Object.assign` over every snapshot
key); if the snapshot is absent or unparseable, the record stays at the
defaults and the failure is swallowed rather than thrown. -/
theorem c3_load_merge (fields : List (String × JsVal))
    (hnd : (fields.map Prod.fst).Nodup) :
    (∀ k, k ∈ declaredKeys → getKV fields k = none →
        getKV (loadA11ySettings (.parsed fields) a11yStateDefaults) k =
          getKV a11yStateDefaults k)
    ∧ (∀ k v, getKV a11yStateDefaults k = none → getKV fields k = some v →
        getKV (loadA11ySettings (.parsed fields) a11yStateDefaults) k = some v)
    ∧ loadA11ySettings .absent a11yStateDefaults = a11yStateDefaults
    ∧ loadA11ySettings .unparseable a11yStateDefaults = a11yStateDefaults := by
  refine ⟨?_, ?_, by decide, by decide⟩
  · intro k hk hnone
    have hst : getKV (objectAssign a11yStateDefaults fields) k =
        getKV a11yStateDefaults k :=
      getKV_objectAssign_of_none fields k hnone a11yStateDefaults
    by_cases hkb : k = "keyboardShortcuts"
    · subst hkb
      have hkbv : getKV (objectAssign a11yStateDefaults fields) "keyboardShortcuts" =
          some (.vBool true) := by
        rw [hst]; decide
      simp only [loadA11ySettings, hkbv]
      rw [← hst, hkbv]
    · simp only [loadA11ySettings]
      cases hkv : getKV (objectAssign a11yStateDefaults fields) "keyboardShortcuts" with
      | none =>
          rw [getKV_setKV_other _ _ _ _ hkb]
          exact hst
      | some w =>
          cases w with
          | vNull =>
              rw [getKV_setKV_other _ _ _ _ hkb]
              exact hst
          | vBool b => exact hst
          | vNum n => exact hst
          | vStr str => exact hst
  · intro k v hdef hsome
    have hkb : k ≠ "keyboardShortcuts" := by
      intro hkb
      subst hkb
      rw [show getKV a11yStateDefaults "keyboardShortcuts" = some (.vBool true) from by decide]
        at hdef
      cases hdef
    have hst : getKV (objectAssign a11yStateDefaults fields) k = some v :=
      getKV_objectAssign_of_some fields k v hnd hsome a11yStateDefaults
    simp only [loadA11ySettings]
    cases hkv : getKV (objectAssign a11yStateDefaults fields) "keyboardShortcuts" with
    | none =>
        rw [getKV_setKV_other _ _ _ _ hkb]
        exact hst
    | some w =>
        cases w with
        | vNull =>
            rw [getKV_setKV_other _ _ _ _ hkb]
            exact hst
        | vBool b => exact hst
        | vNum n => exact hst
        | vStr str => exact hst

theorem c3_load_merge_witness :
    getKV (loadA11ySettings (.parsed [("extraKey", .vNum 7)]) a11yStateDefaults)
      "highContrast" = some (.vBool false)
    ∧ getKV (loadA11ySettings (.parsed [("extraKey", .vNum 7)]) a11yStateDefaults)
      "extraKey" = some (.vNum 7) := by
  have h := c3_load_merge [("extraKey", .vNum 7)] (by decide)
  refine ⟨?_, ?_⟩
  · rw [h.1 "highContrast" (by decide) (by decide)]; decide
  · exact h.2.1 "extraKey" (.vNum 7) (by decide) (by decide)

/-- C4 counterexample.  The claim says that after `load()` no declared key
ever reads back null — defaults always backfill.  But the null/undefined
backfill in the source guards only `keyboardShortcuts`; a parseable
snapshot that stores `null` under `highContrast` is copied verbatim by
`Object.assign`, so the record reads back null for that key. -/
theorem c4_counterexample :
    getKV (loadA11ySettings (.parsed [("highContrast", JsVal.vNull)]) a11yStateDefaults)
      "highContrast" = some JsVal.vNull := by
  decide

/-- C4 amended: after `load()` every one of the twelve declared keys is
present in the record (keys are never absent, whatever the snapshot), and
its value is non-null provided the snapshot itself does not explicitly
store null under that key; only `keyboardShortcuts` is additionally
backfilled to `true` when the snapshot stores null for it. -/
theorem c4_load_total (k : String) (hk : k ∈ declaredKeys) (r : SnapshotRead) :
    getKV (loadA11ySettings r a11yStateDefaults) k ≠ none
    ∧ (∀ fields, (fields.map Prod.fst).Nodup → r = .parsed fields →
        getKV fields k ≠ some JsVal.vNull →
        getKV (loadA11ySettings r a11yStateDefaults) k ≠ some JsVal.vNull)
    ∧ (∀ fields, (fields.map Prod.fst).Nodup → r = .parsed fields →
        getKV fields "keyboardShortcuts" = some JsVal.vNull →
        getKV (loadA11ySettings r a11yStateDefaults) "keyboardShortcuts" =
          some (JsVal.vBool true)) := by
  have hdef : ∃ dv, getKV a11yStateDefaults k = some dv ∧ dv ≠ JsVal.vNull := by
    simp only [declaredKeys, List.mem_cons, List.not_mem_nil, or_false] at hk
    rcases hk with rfl | rfl | rfl | rfl | rfl | rfl | rfl | rfl | rfl | rfl | rfl | rfl <;>
      exact ⟨_, rfl, by decide⟩
  obtain ⟨dv, hdv, hdvn⟩ := hdef
  refine ⟨?_, ?_, ?_⟩
  · cases r with
    | absent =>
        simp only [loadA11ySettings]
        exact getKV_setKV_isSome _ _ _ _ (by rw [hdv]; simp)
    | unparseable =>
        simp only [loadA11ySettings]
        exact getKV_setKV_isSome _ _ _ _ (by rw [hdv]; simp)
    | parsed fields =>
        simp only [loadA11ySettings]
        have hpres : getKV (objectAssign a11yStateDefaults fields) k ≠ none :=
          getKV_objectAssign_isSome fields a11yStateDefaults k (by rw [hdv]; simp)
        cases hkv : getKV (objectAssign a11yStateDefaults fields) "keyboardShortcuts" with
        | none => exact getKV_setKV_isSome _ _ _ _ hpres
        | some w =>
            cases w with
            | vNull => exact getKV_setKV_isSome _ _ _ _ hpres
            | vBool b => exact hpres
            | vNum n => exact hpres
            | vStr str => exact hpres
  · rintro fields hnd rfl hnotnull
    have hmerged : getKV (objectAssign a11yStateDefaults fields) k ≠ some JsVal.vNull := by
      cases hf : getKV fields k with
      | none =>
          rw [getKV_objectAssign_of_none fields k hf a11yStateDefaults, hdv]
          intro hc
          exact hdvn (by injection hc)
      | some w =>
          rw [getKV_objectAssign_of_some fields k w hnd hf a11yStateDefaults]
          intro hc
          exact hnotnull (by rw [hf]; injection hc with hw; rw [hw])
    simp only [loadA11ySettings]
    by_cases hkb : k = "keyboardShortcuts"
    · subst hkb
      cases hkv : getKV (objectAssign a11yStateDefaults fields) "keyboardShortcuts" with
      | none => simp [getKV_setKV_same]
      | some w =>
          cases w with
          | vNull => simp [getKV_setKV_same]
          | vBool b => simp [hkv]
          | vNum n => simp [hkv]
          | vStr str => simp [hkv]
    · cases hkv : getKV (objectAssign a11yStateDefaults fields) "keyboardShortcuts" with
      | none => rw [getKV_setKV_other _ _ _ _ hkb]; exact hmerged
      | some w =>
          cases w with
          | vNull => rw [getKV_setKV_other _ _ _ _ hkb]; exact hmerged
          | vBool b => exact hmerged
          | vNum n => exact hmerged
          | vStr str => exact hmerged
  · rintro fields hnd2 rfl hnull
    have hmerged : getKV (objectAssign a11yStateDefaults fields) "keyboardShortcuts" =
        some JsVal.vNull :=
      getKV_objectAssign_of_some fields _ _ hnd2 hnull a11yStateDefaults
    simp only [loadA11ySettings, hmerged]
    simp [getKV_setKV_same]

theorem c4_load_total_witness :
    getKV (loadA11ySettings (.parsed [("textSize", JsVal.vNum 150)]) a11yStateDefaults)
      "highContrast" ≠ some JsVal.vNull
    ∧ getKV (loadA11ySettings .absent a11yStateDefaults) "highContrast" ≠ none := by
  have h1 := c4_load_total "highContrast" (by decide)
    (.parsed [("textSize", JsVal.vNum 150)])
  have h2 := c4_load_total "highContrast" (by decide) .absent
  exact ⟨h1.2.1 _ (by decide) rfl (by decide), h2.1⟩

/- ### Claim C6 — screen-reader auto-detection -/

/-- C6: `detectScreenReader` is a pure function of the stored preference and
the environment descriptor, and it equals the spec's decision procedure: a
non-`auto` preference is returned verbatim; otherwise speech+Apple →
voiceover, speech+Windows → narrator, then Windows → nvda, Apple →
voiceover, Android → talkback, Linux → orca, default nvda.  In particular
any Windows-signature environment without speech capability yields nvda. -/
theorem c6_detect_matches_spec (mode : String) (env : SrEnv) :
    detectScreenReader mode env = detectSpec mode (descriptorOf env)
    ∧ (mode = "auto" → env.speechVoices = false → hasSub "win" env.ua = true →
        detectScreenReader mode env = "nvda") := by
  constructor
  · rfl
  · intro hm hs hw
    subst hm
    simp [detectScreenReader, hs, hw]

theorem c6_detect_matches_spec_witness :
    detectScreenReader "auto" ⟨"mozilla/5.0 (windows nt 10.0; win64; x64)", false⟩ =
      "nvda" :=
  (c6_detect_matches_spec "auto"
    ⟨"mozilla/5.0 (windows nt 10.0; win64; x64)", false⟩).2 rfl rfl (by decide)

/- ### Claim C2 — simplified-language round trip -/

/-- C2 counterexample.  Two independent failures of the claim at concrete
inputs.  First, enable-then-disable does not restore the *exact original
string*: `applySimpleLanguage` records the **trimmed** text in
`data-original-text` (`const text = el.textContent.trim(); ...
el.setAttribute('data-original-text', text)`), so a leaf whose text is
`" Submit"` — whose trimmed text `"Submit"` is a dictionary key — comes
back as `"Submit"`.  Second, an element whose trimmed text is *not* a
dictionary key is not necessarily left untouched by enable:
`simpleLanguageMap` is a plain object literal, so
`if (simpleLanguageMap[text])` is truthy for inherited `Object.prototype`
names such as `"toString"`, and the source clobbers such an element's text
with the stringified inherited member. -/
theorem c2_counterexample :
    (removeSimpleLanguage (applySimpleLanguage [⟨" Submit", none⟩]) =
        [⟨"Submit", none⟩]
      ∧ (" Submit" : String) ≠ "Submit")
    ∧ (getKV simpleLanguageMap "toString" = none
      ∧ applySimpleLanguage [⟨"toString", none⟩] =
          [⟨"function toString() \x7b [native code] \x7d", some "toString"⟩]) := by
  decide

/-- C2 amended: for a clean leaf element (no prior `data-original-text`),
if the object-literal lookup of its trimmed text is truthy — the trimmed
text is a dictionary key, or an inherited `Object.prototype` property name
such as `toString` — then enable rewrites the element (recording the
trimmed text) and enable-then-disable restores the *trimmed* original
string, hence the exact original precisely when the text carries no
surrounding whitespace; and every element whose trimmed text is neither a
dictionary key nor an inherited name is left untouched by both the enable
and the disable operations. -/
theorem c2_simple_language_roundtrip (el : LeafEl) (h0 : el.origAttr = none) :
    ((simpleLanguageLookup (jsTrim el.textContent)).isSome →
        removeSimpleLanguageEl (applySimpleLanguageEl el) =
          { textContent := jsTrim el.textContent, origAttr := none }
        ∧ (jsTrim el.textContent = el.textContent →
            removeSimpleLanguageEl (applySimpleLanguageEl el) = el))
    ∧ (simpleLanguageLookup (jsTrim el.textContent) = none →
        applySimpleLanguageEl el = el ∧ removeSimpleLanguageEl el = el) := by
  obtain ⟨tc, orig⟩ := el
  subst h0
  constructor
  · intro hsome
    have htc : tc ≠ "" := by
      intro h
      subst h
      revert hsome
      decide
    cases hrepl : simpleLanguageLookup (jsTrim tc) with
    | none => rw [hrepl] at hsome; cases hsome
    | some repl =>
        have happ : applySimpleLanguageEl ⟨tc, none⟩ = ⟨repl, some (jsTrim tc)⟩ := by
          simp [applySimpleLanguageEl, htc, hrepl]
        constructor
        · rw [happ]
          rfl
        · intro heq
          rw [happ]
          simp [removeSimpleLanguageEl, heq]
  · intro hnone
    refine ⟨?_, rfl⟩
    by_cases htc : tc = ""
    · simp [applySimpleLanguageEl, htc]
    · simp [applySimpleLanguageEl, htc, hnone]

theorem c2_simple_language_roundtrip_witness :
    removeSimpleLanguageEl (applySimpleLanguageEl ⟨"Submit", none⟩) = ⟨"Submit", none⟩
    ∧ removeSimpleLanguageEl (applySimpleLanguageEl ⟨"toString", none⟩) =
        ⟨"toString", none⟩
    ∧ applySimpleLanguageEl ⟨"Hello there", none⟩ = ⟨"Hello there", none⟩ := by
  have h1 := (c2_simple_language_roundtrip ⟨"Submit", none⟩ rfl).1 (by decide)
  have h2 := (c2_simple_language_roundtrip ⟨"toString", none⟩ rfl).1 (by decide)
  have h3 := (c2_simple_language_roundtrip ⟨"Hello there", none⟩ rfl).2 (by decide)
  exact ⟨h1.2 (by decide), h2.2 (by decide), h3.1⟩

/- ### Claim C7 — announcer set/clear timing -/

/-- C7: `announce(message, priority)` sets the live region's priority
attribute and then its text, and a scheduled clear empties the text 1000 ms
later; for two calls `announce(X)` then `announce(Y)` within 1 second, the
region's text right after the second call is `Y`, and once the clear delay
has elapsed from the second call the text is empty (the first call's timer,
which is never cancelled, only ever clears — it cannot resurrect `X`). -/
theorem c7_announce_timing (x y p1 p2 : String) (t1 t2 : Nat) (r : LiveRegion)
    (h12 : t1 ≤ t2) (hlt : t2 < t1 + 1000) :
    regionAt [(t1, x, p1)] t1 r = ⟨p1, x⟩
    ∧ (∀ T, t1 + 1000 ≤ T → (regionAt [(t1, x, p1)] T r).text = "")
    ∧ (regionAt [(t1, x, p1), (t2, y, p2)] t2 r).text = y
    ∧ (∀ T, t2 + 1000 ≤ T → (regionAt [(t1, x, p1), (t2, y, p2)] T r).text = "") := by
  have hsched1 : announceSchedule [(t1, x, p1)] =
      [(t1, .doSet p1 x), (t1 + 1000, .doClear)] := by
    simp [announceSchedule, insertEv]
  have ha1 : t1 ≤ t2 := h12
  have ha2 : ¬ (t1 + 1000 ≤ t2) := by omega
  have hsched2 : announceSchedule [(t1, x, p1), (t2, y, p2)] =
      [(t1, .doSet p1 x), (t2, .doSet p2 y), (t1 + 1000, .doClear),
       (t2 + 1000, .doClear)] := by
    simp [announceSchedule, insertEv, ha1, ha2]
    omega
  refine ⟨?_, ?_, ?_, ?_⟩
  · rw [regionAt, hsched1]
    have : ¬ (t1 + 1000 ≤ t1) := by omega
    simp [List.filter, this, runAnnEvents]
  · intro T hT
    rw [regionAt, hsched1]
    have h1T : t1 ≤ T := by omega
    simp [List.filter, h1T, hT, runAnnEvents]
  · rw [regionAt, hsched2]
    have hb1 : ¬ (t1 + 1000 ≤ t2) := by omega
    have hb2 : ¬ (t2 + 1000 ≤ t2) := by omega
    simp [List.filter, ha1, hb1, hb2, runAnnEvents]
  · intro T hT
    rw [regionAt, hsched2]
    have h1T : t1 ≤ T := by omega
    have h2T : t2 ≤ T := by omega
    have h3T : t1 + 1000 ≤ T := by omega
    simp [List.filter, h1T, h2T, h3T, hT, runAnnEvents]

theorem c7_announce_timing_witness :
    (regionAt [(0, "X", "polite"), (500, "Y", "assertive")] 500
        ⟨"polite", ""⟩).text = "Y"
    ∧ (regionAt [(0, "X", "polite"), (500, "Y", "assertive")] 1500
        ⟨"polite", ""⟩).text = "" := by
  have h := c7_announce_timing "X" "Y" "polite" "assertive" 0 500 ⟨"polite", ""⟩
    (by decide) (by decide)
  exact ⟨h.2.2.1, h.2.2.2 1500 (by decide)⟩

/- ### Claim C8 — audio mute short-circuit and toggle -/

/-- C8 counterexample.  The claim says `toggleAudioAlerts()` while muted
re-arms the synthesis context, plays the info tone and announces the state
change.  But all three actions sit inside `if (toggle)` keyed on the
`#audioToggle` element, which the plugin's own panel never injects: with no
such element the call flips and persists the flag but plays nothing,
announces nothing, and leaves the context un-created. -/
theorem c8_counterexample :
    (toggleAudioAlerts mutedNoToggleAudio).tonesPlayed = []
    ∧ (toggleAudioAlerts mutedNoToggleAudio).announcements = []
    ∧ (toggleAudioAlerts mutedNoToggleAudio).audioContextExists = false
    ∧ (toggleAudioAlerts mutedNoToggleAudio).audioEnabled = true := by
  decide

/-- C8 amended: when `audioEnabled` is false every named alert call
returns before any synthesis is attempted; toggling while muted re-arms the
context, plays the info tone and announces the change *provided the
`#audioToggle` element is present* (and the environment can construct a
synthesis context); and a double toggle restores `audioEnabled` (provided
context construction does not throw), with the stored preference matching
the in-memory flag after each of the two calls. -/
theorem c8_audio_toggle (s : AudioSys) :
    (s.audioEnabled = false →
        playSuccessSound s = s ∧ playErrorSound s = s ∧ playInfoSound s = s)
    ∧ (s.audioEnabled = false → s.toggleElPresent = true → s.envAudioSupport = true →
        s.ctxConstructFails = false →
        (toggleAudioAlerts s).audioContextExists = true
        ∧ (toggleAudioAlerts s).tonesPlayed = s.tonesPlayed ++ ["600"]
        ∧ (toggleAudioAlerts s).announcements =
            s.announcements ++ ["Audio alerts enabled."])
    ∧ (s.ctxConstructFails = false →
        (toggleAudioAlerts (toggleAudioAlerts s)).audioEnabled = s.audioEnabled
        ∧ getKV (toggleAudioAlerts s).audioStore "audioAlertsEnabled" =
            some (toString (toggleAudioAlerts s).audioEnabled)
        ∧ getKV (toggleAudioAlerts (toggleAudioAlerts s)).audioStore
            "audioAlertsEnabled" =
            some (toString (toggleAudioAlerts (toggleAudioAlerts s)).audioEnabled)) := by
  obtain ⟨e, cx, sup, cf, tp, aria, tones, anns, store⟩ := s
  refine ⟨?_, ?_, ?_⟩
  · rintro rfl
    exact ⟨rfl, rfl, rfl⟩
  · rintro rfl rfl rfl rfl
    cases cx <;>
      simp [toggleAudioAlerts, initAudioContext, playInfoSound, playTone, announceAudio]
  · rintro rfl
    cases e <;> cases cx <;> cases sup <;> cases tp <;>
      simp [toggleAudioAlerts, initAudioContext, playInfoSound, playTone, announceAudio,
        getKV_setKV_same]

theorem c8_audio_toggle_witness :
    (toggleAudioAlerts
        { mutedNoToggleAudio with toggleElPresent := true }).tonesPlayed = [] ++ ["600"]
    ∧ (toggleAudioAlerts (toggleAudioAlerts mutedNoToggleAudio)).audioEnabled = false := by
  have h1 := (c8_audio_toggle { mutedNoToggleAudio with toggleElPresent := true }).2.1
    rfl rfl rfl rfl
  have h2 := (c8_audio_toggle mutedNoToggleAudio).2.2 rfl
  exact ⟨h1.2.1, h2.1⟩

/- ### Claim C5 — color-scheme marker exclusivity -/

theorem replaceColorClasses_append (xs ys : List String) :
    replaceColorClasses (xs ++ ys) =
      replaceColorClasses xs ++ replaceColorClasses ys := by
  induction xs with
  | nil => rfl
  | cons t ts ih =>
      by_cases h : stripColorTok t = ""
      · simp [replaceColorClasses, h, ih]
      · simp [replaceColorClasses, h, ih]

theorem mem_replaceColorClasses_strip_fixed (cs : List String)
    (h : ∀ t ∈ cs, StripStable t) :
    ∀ u ∈ replaceColorClasses cs, stripColorTok u = u ∧ u ≠ "" := by
  induction cs with
  | nil => intro u hu; cases hu
  | cons t ts ih =>
      intro u hu
      have ht : StripStable t := h t (List.mem_cons_self _ _)
      have hts : ∀ w ∈ ts, StripStable w := fun w hw => h w (List.mem_cons_of_mem _ hw)
      by_cases hz : stripColorTok t = ""
      · rw [show replaceColorClasses (t :: ts) = replaceColorClasses ts by
            simp [replaceColorClasses, hz]] at hu
        exact ih hts u hu
      · rw [show replaceColorClasses (t :: ts) =
            stripColorTok t :: replaceColorClasses ts by
            simp [replaceColorClasses, hz]] at hu
        rcases List.mem_cons.mp hu with rfl | hu'
        · exact ⟨ht, hz⟩
        · exact ih hts u hu'

theorem replaceColorClasses_idem (cs : List String)
    (h : ∀ t ∈ cs, StripStable t) :
    replaceColorClasses (replaceColorClasses cs) = replaceColorClasses cs := by
  induction cs with
  | nil => rfl
  | cons t ts ih =>
      have ht : StripStable t := h t (List.mem_cons_self _ _)
      have hts : ∀ w ∈ ts, StripStable w := fun w hw => h w (List.mem_cons_of_mem _ hw)
      by_cases hz : stripColorTok t = ""
      · simp [replaceColorClasses, hz, ih hts]
      · have ht' : stripColorTok (stripColorTok t) = stripColorTok t := ht
        simp [replaceColorClasses, hz, ht', ih hts]

theorem stripStable_of_mem_replace (cs : List String)
    (h : ∀ t ∈ cs, StripStable t) :
    ∀ u ∈ replaceColorClasses cs, StripStable u := by
  intro u hu
  obtain ⟨h1, _⟩ := mem_replaceColorClasses_strip_fixed cs h u hu
  show stripColorTok (stripColorTok u) = stripColorTok u
  rw [h1, h1]

theorem marker_strip (c : ColorScheme) (hc : c ≠ .cdefault) :
    stripColorTok ("color-" ++ c.name) = ""
    ∧ ("color-" ++ c.name) ∈ schemeMarkerNames
    ∧ c.name ≠ "default" := by
  cases c with
  | cdefault => exact absurd rfl hc
  | protanopia => exact ⟨by decide, by decide, by decide⟩
  | deuteranopia => exact ⟨by decide, by decide, by decide⟩
  | tritanopia => exact ⟨by decide, by decide, by decide⟩
  | monochrome => exact ⟨by decide, by decide, by decide⟩

theorem stripStable_marker (c : ColorScheme) (hc : c ≠ .cdefault) :
    StripStable ("color-" ++ c.name) := by
  cases c with
  | cdefault => exact absurd rfl hc
  | protanopia => decide
  | deuteranopia => decide
  | tritanopia => decide
  | monochrome => decide

theorem not_mem_replace_of_strip_empty (cs : List String)
    (h : ∀ t ∈ cs, StripStable t) (m : String) (hm : stripColorTok m = "") :
    m ∉ replaceColorClasses cs := by
  intro hmem
  obtain ⟨h1, h2⟩ := mem_replaceColorClasses_strip_fixed cs h m hmem
  exact h2 (h1.symm.trans hm)

theorem setColorSchemeClasses_eq (c : ColorScheme) (cs : List String)
    (h : ∀ t ∈ cs, StripStable t) :
    setColorSchemeClasses c.name cs =
      if c = .cdefault then replaceColorClasses cs
      else replaceColorClasses cs ++ ["color-" ++ c.name] := by
  by_cases hc : c = .cdefault
  · subst hc
    simp [setColorSchemeClasses, ColorScheme.name]
  · obtain ⟨hm1, _, hm3⟩ := marker_strip c hc
    have hnm := not_mem_replace_of_strip_empty cs h _ hm1
    rw [if_neg hc]
    simp only [setColorSchemeClasses]
    rw [if_pos hm3]
    simp [classListAdd, hnm]

theorem setColorScheme_twice (A B : ColorScheme) (cs : List String)
    (h : ∀ t ∈ cs, StripStable t) :
    setColorSchemeClasses B.name (setColorSchemeClasses A.name cs) =
      if B = .cdefault then replaceColorClasses cs
      else replaceColorClasses cs ++ ["color-" ++ B.name] := by
  have hS := stripStable_of_mem_replace cs h
  rw [setColorSchemeClasses_eq A cs h]
  by_cases hA : A = .cdefault
  · rw [if_pos hA, setColorSchemeClasses_eq B _ hS, replaceColorClasses_idem cs h]
  · rw [if_neg hA]
    have h' : ∀ t ∈ replaceColorClasses cs ++ ["color-" ++ A.name], StripStable t := by
      intro t ht
      rcases List.mem_append.mp ht with h1 | h2
      · exact hS t h1
      · rw [List.mem_singleton.mp h2]
        exact stripStable_marker A hA
    rw [setColorSchemeClasses_eq B _ h']
    have hR : replaceColorClasses (replaceColorClasses cs ++ ["color-" ++ A.name]) =
        replaceColorClasses cs := by
      rw [replaceColorClasses_append, replaceColorClasses_idem cs h]
      have hone : replaceColorClasses ["color-" ++ A.name] = [] := by
        simp [replaceColorClasses, (marker_strip A hA).1]
      rw [hone, List.append_nil]
    rw [hR]

theorem schemeMarkers_replace_nil (cs : List String)
    (h : ∀ t ∈ cs, StripStable t) :
    schemeMarkers (replaceColorClasses cs) = [] := by
  rw [schemeMarkers, List.filter_eq_nil_iff]
  intro u hu
  obtain ⟨h1, h2⟩ := mem_replaceColorClasses_strip_fixed cs h u hu
  simp only [decide_eq_true_eq]
  intro humem
  have hall : ∀ m ∈ schemeMarkerNames, stripColorTok m = "" := by decide
  exact h2 (h1.symm.trans (hall u humem))

/-- C5 counterexample.  The claim says that after applying scheme A then
scheme B "exactly one scheme marker class" is on the page root "and it is
B's marker" — for *every* pair of schemes.  For B = `default` the code adds
no marker at all (`if (scheme !== 'default')`), so after
`setColorScheme('protanopia')` then `setColorScheme('default')` zero scheme
marker classes remain, not one. -/
theorem c5_counterexample :
    schemeMarkers (setColorSchemeClasses "default"
      (setColorSchemeClasses "protanopia" [])) = [] := by
  decide

/-- C5 amended: applying scheme A then scheme B always strips any previous
scheme marker first, so two scheme markers never coexist: afterwards the
scheme markers on the page root are exactly `[color-B]` when B is not
`default`, and none when B is `default` (which has no marker class).  The
hypothesis says each pre-existing class token is strip-stable — that is,
the regex deletion does not splice a fresh `color-` run out of exotic
token text. -/
theorem c5_scheme_exclusive (A B : ColorScheme) (cs : List String)
    (h : ∀ t ∈ cs, StripStable t) :
    schemeMarkers (setColorSchemeClasses B.name (setColorSchemeClasses A.name cs)) =
      (if B = .cdefault then [] else ["color-" ++ B.name]) := by
  rw [setColorScheme_twice A B cs h]
  by_cases hB : B = .cdefault
  · rw [if_pos hB, if_pos hB, schemeMarkers_replace_nil cs h]
  · rw [if_neg hB, if_neg hB]
    rw [show schemeMarkers (replaceColorClasses cs ++ ["color-" ++ B.name]) =
        schemeMarkers (replaceColorClasses cs) ++
          schemeMarkers ["color-" ++ B.name] by
      simp [schemeMarkers]]
    rw [schemeMarkers_replace_nil cs h]
    simp [schemeMarkers, (marker_strip B hB).2.1]

theorem c5_scheme_exclusive_witness :
    schemeMarkers (setColorSchemeClasses "deuteranopia"
      (setColorSchemeClasses "protanopia" ["menu"])) = ["color-deuteranopia"] := by
  have h := c5_scheme_exclusive .protanopia .deuteranopia ["menu"] (by decide)
  simpa using h

/- ### Claim C9 — applicator idempotence and single-overlay bound -/

theorem classListAdd_idem (cs : List String) (c : String) :
    classListAdd (classListAdd cs c) c = classListAdd cs c := by
  by_cases h : c ∈ cs
  · simp [classListAdd, h]
  · simp [classListAdd, h]

theorem classListRemove_idem (cs : List String) (c : String) :
    classListRemove (classListRemove cs c) c = classListRemove cs c := by
  induction cs with
  | nil => rfl
  | cons t ts ih =>
      by_cases h : t = c
      · simp [classListRemove, h]
      · simp [classListRemove, h]

theorem mem_of_simpleLanguageLookup (t r : String)
    (h : simpleLanguageLookup t = some r) :
    (t, r) ∈ simpleLanguageMap ∨ (t, r) ∈ objectProtoMembers := by
  unfold simpleLanguageLookup at h
  cases hk : getKV simpleLanguageMap t with
  | some v =>
      rw [hk] at h
      injection h with h
      subst h
      exact Or.inl (mem_of_getKV _ _ _ hk)
  | none =>
      rw [hk] at h
      exact Or.inr (mem_of_getKV _ _ _ h)

theorem applySimpleLanguageEl_idem (el : LeafEl) :
    applySimpleLanguageEl (applySimpleLanguageEl el) = applySimpleLanguageEl el := by
  by_cases htc : el.textContent = ""
  · have happ : applySimpleLanguageEl el = el := by
      simp [applySimpleLanguageEl, htc]
    rw [happ]
    exact happ
  · cases hrepl : simpleLanguageLookup (jsTrim el.textContent) with
    | none =>
        have happ : applySimpleLanguageEl el = el := by
          simp [applySimpleLanguageEl, htc, hrepl]
        rw [happ]
        exact happ
    | some repl =>
        have happ : applySimpleLanguageEl el = ⟨repl, some (jsTrim el.textContent)⟩ := by
          simp [applySimpleLanguageEl, htc, hrepl]
        have hfact1 : ∀ p ∈ simpleLanguageMap,
            applySimpleLanguageEl ⟨p.2, some p.1⟩ = ⟨p.2, some p.1⟩ := by decide
        have hfact2 : ∀ p ∈ objectProtoMembers,
            applySimpleLanguageEl ⟨p.2, some p.1⟩ = ⟨p.2, some p.1⟩ := by decide
        rw [happ]
        rcases mem_of_simpleLanguageLookup _ _ hrepl with hm | hm
        · exact hfact1 _ hm
        · exact hfact2 _ hm

theorem removeSimpleLanguageEl_idem (el : LeafEl) :
    removeSimpleLanguageEl (removeSimpleLanguageEl el) = removeSimpleLanguageEl el := by
  cases h : el.origAttr <;> simp [removeSimpleLanguageEl, h]

theorem applySimpleLanguage_idem (els : List LeafEl) :
    applySimpleLanguage (applySimpleLanguage els) = applySimpleLanguage els := by
  induction els with
  | nil => rfl
  | cons e es ih =>
      simp only [applySimpleLanguage, List.map_cons] at ih ⊢
      rw [applySimpleLanguageEl_idem]
      exact congrArg _ ih

theorem removeSimpleLanguage_idem (els : List LeafEl) :
    removeSimpleLanguage (removeSimpleLanguage els) = removeSimpleLanguage els := by
  induction els with
  | nil => rfl
  | cons e es ih =>
      simp only [removeSimpleLanguage, List.map_cons] at ih ⊢
      rw [removeSimpleLanguageEl_idem]
      exact congrArg _ ih

theorem applyFeature_overlay_inv (env : DomEnv) (f : FeatureApp) (s : Sys)
    (h1 : s.page.readingGuideCount = (if s.readingGuideEl then 1 else 0))
    (h2 : s.page.tabIndicatorCount = (if s.tabIndicatorEl then 1 else 0)) :
    (applyFeature env f s).page.readingGuideCount =
      (if (applyFeature env f s).readingGuideEl then 1 else 0)
    ∧ (applyFeature env f s).page.tabIndicatorCount =
      (if (applyFeature env f s).tabIndicatorEl then 1 else 0) := by
  cases f with
  | highContrast b =>
      cases b <;>
        simpa [applyFeature, toggleHighContrast, saveA11ySettings, announceSys,
          requestInfoSound] using ⟨h1, h2⟩
  | textSize n =>
      simpa [applyFeature, setTextSize, saveA11ySettings] using ⟨h1, h2⟩
  | colorScheme c =>
      simpa [applyFeature, setColorScheme, saveA11ySettings, announceSys] using ⟨h1, h2⟩
  | enhancedFocus b =>
      cases b <;>
        simpa [applyFeature, toggleEnhancedFocus, saveA11ySettings] using ⟨h1, h2⟩
  | reduceMotion b =>
      cases b <;>
        simpa [applyFeature, toggleReduceMotion, saveA11ySettings] using ⟨h1, h2⟩
  | simpleLanguage b =>
      cases b <;>
        simpa [applyFeature, toggleSimpleLanguage, saveA11ySettings, announceSys]
          using ⟨h1, h2⟩
  | readingGuide b =>
      cases b with
      | false =>
          by_cases hel : s.readingGuideEl <;>
            simp [applyFeature, toggleReadingGuide, saveA11ySettings, hel, h1, h2]
      | true =>
          by_cases hel : s.readingGuideEl <;>
            simp [applyFeature, toggleReadingGuide, saveA11ySettings, hel, h1, h2]
  | tabOrder b =>
      cases b with
      | false =>
          by_cases hel : s.tabIndicatorEl <;>
            simp [applyFeature, toggleTabOrder, updateTabIndicator, saveA11ySettings,
              hel, h1, h2]
      | true =>
          by_cases hel : s.tabIndicatorEl <;> cases hf : env.focusedNonBody <;>
            simp [applyFeature, toggleTabOrder, updateTabIndicator, saveA11ySettings,
              hel, hf, h1, h2]

theorem runFeatures_overlay_inv (steps : List (DomEnv × FeatureApp)) :
    ∀ s : Sys,
      s.page.readingGuideCount = (if s.readingGuideEl then 1 else 0) →
      s.page.tabIndicatorCount = (if s.tabIndicatorEl then 1 else 0) →
      (runFeatures steps s).page.readingGuideCount =
        (if (runFeatures steps s).readingGuideEl then 1 else 0)
      ∧ (runFeatures steps s).page.tabIndicatorCount =
        (if (runFeatures steps s).tabIndicatorEl then 1 else 0) := by
  induction steps with
  | nil => intro s h1 h2; exact ⟨h1, h2⟩
  | cons p rest ih =>
      intro s h1 h2
      obtain ⟨env, f⟩ := p
      obtain ⟨g1, g2⟩ := applyFeature_overlay_inv env f s h1 h2
      exact ih (applyFeature env f s) g1 g2

/-- C9: for every feature key and value, applying that feature's
single-feature applicator twice with the same value leaves the page in the
same observable state as applying it once (marker classes do not stack and
the substitution/overlay state stabilises), and across any sequence of
enable/disable cycles starting from a fresh page the reading-guide and
tab-order overlays never exceed one element each — the overlay node is
created once and only toggled thereafter.  The class-token hypothesis is
the strip-stability side condition on pre-existing page classes, as in the
color-scheme theorem. -/
theorem c9_applicators_idempotent :
    (∀ (env : DomEnv) (f : FeatureApp) (s : Sys),
        (∀ t ∈ s.page.bodyClasses, StripStable t) →
        (applyFeature env f (applyFeature env f s)).page = (applyFeature env f s).page)
    ∧ (∀ steps : List (DomEnv × FeatureApp),
        (runFeatures steps initSys).page.readingGuideCount ≤ 1
        ∧ (runFeatures steps initSys).page.tabIndicatorCount ≤ 1) := by
  constructor
  · intro env f s hinv
    cases f with
    | highContrast b =>
        cases b <;>
          simp [applyFeature, toggleHighContrast, saveA11ySettings, announceSys,
            requestInfoSound, classListAdd_idem, classListRemove_idem]
    | textSize n =>
        cases hl : s.page.textSizeLabel <;>
          simp [applyFeature, setTextSize, saveA11ySettings, hl]
    | colorScheme c =>
        have hcc : setColorSchemeClasses c.name
            (setColorSchemeClasses c.name s.page.bodyClasses) =
            setColorSchemeClasses c.name s.page.bodyClasses :=
          (setColorScheme_twice c c s.page.bodyClasses hinv).trans
            (setColorSchemeClasses_eq c s.page.bodyClasses hinv).symm
        simp [applyFeature, setColorScheme, saveA11ySettings, announceSys, hcc]
    | enhancedFocus b =>
        cases b <;>
          simp [applyFeature, toggleEnhancedFocus, saveA11ySettings,
            classListAdd_idem, classListRemove_idem]
    | reduceMotion b =>
        cases b <;>
          simp [applyFeature, toggleReduceMotion, saveA11ySettings,
            classListAdd_idem, classListRemove_idem]
    | simpleLanguage b =>
        cases b <;>
          simp [applyFeature, toggleSimpleLanguage, saveA11ySettings, announceSys,
            applySimpleLanguage_idem, removeSimpleLanguage_idem]
    | readingGuide b =>
        cases b with
        | false =>
            by_cases hel : s.readingGuideEl <;>
              simp [applyFeature, toggleReadingGuide, saveA11ySettings, hel]
        | true =>
            by_cases hel : s.readingGuideEl <;>
              simp [applyFeature, toggleReadingGuide, saveA11ySettings, hel]
    | tabOrder b =>
        cases b with
        | false =>
            by_cases hel : s.tabIndicatorEl <;>
              simp [applyFeature, toggleTabOrder, updateTabIndicator,
                saveA11ySettings, hel]
        | true =>
            by_cases hel : s.tabIndicatorEl <;> cases hf : env.focusedNonBody <;>
              simp [applyFeature, toggleTabOrder, updateTabIndicator,
                saveA11ySettings, hel, hf]
  · intro steps
    obtain ⟨g1, g2⟩ := runFeatures_overlay_inv steps initSys (by rfl) (by rfl)
    constructor
    · rw [g1]
      split <;> omega
    · rw [g2]
      split <;> omega

theorem c9_applicators_idempotent_witness :
    (applyFeature ⟨true⟩ (.readingGuide true)
        (applyFeature ⟨true⟩ (.readingGuide true) initSys)).page =
      (applyFeature ⟨true⟩ (.readingGuide true) initSys).page
    ∧ (runFeatures [(⟨true⟩, .readingGuide true), (⟨true⟩, .readingGuide false),
        (⟨true⟩, .readingGuide true)] initSys).page.readingGuideCount ≤ 1 := by
  have h := c9_applicators_idempotent
  exact ⟨h.1 ⟨true⟩ (.readingGuide true) initSys (by intro t ht; cases ht),
    (h.2 [(⟨true⟩, .readingGuide true), (⟨true⟩, .readingGuide false),
      (⟨true⟩, .readingGuide true)]).1⟩
